import Mathlib

/-!
# Qawno main window: compile, save and close logic

A shallow embedding of `src/MainWindow.cpp`.  The window is a record of the
values its slots read and write: the editor text and its modified flag, the
current file name, the output pane, and the compiler object.  Everything the
slots obtain from outside the program is part of the record too: the files on
disk, the paths that cannot be opened for writing, the executables, and the
answers the user will give to the dialogs, one queue per kind of dialog.  A
slot that shows a dialog takes the head of the matching queue.

The window title (`updateWindowTitle`), fonts, search dialogs and the settings
store are not tracked.  `src/src/MainWindow.h` declares the members of another
revision under other names; the embedding follows `MainWindow.cpp`.

`Compiler`, `CompilerOptionsDialog`, `EditorWidget` and `OutputWidget` are used
by `MainWindow.cpp` but are not among the sources.  The editor and the output
pane are modelled by the Qt calls made on them; the compiler and its dialog are
modelled from the specification and marked so.
-/

namespace Qawno

/-! ## Strings and the option tokenizer -/

/-- Qt's `QStringList::join(sep)`. -/
def join (sep : String) : List String → String
  | [] => ""
  | [x] => x
  | x :: y :: ys => x ++ sep ++ join sep (y :: ys)

/-- Whitespace characters recognised by the tokenizer. -/
def isSpace (c : Char) : Bool := c.isWhitespace

/-- Worker of `tokens`: `cur` holds the characters of the token being read, last
character first. -/
def tokensAux : List Char → List Char → List (List Char)
  | cur, [] => if cur = [] then [] else [cur.reverse]
  | cur, c :: cs =>
    if isSpace c then
      (if cur = [] then tokensAux [] cs else cur.reverse :: tokensAux [] cs)
    else tokensAux (c :: cur) cs

/-- Modelled from the spec: the whitespace tokenizer of CommandBuilder
(`Compiler.cpp` is not among the sources).  "Splits `optionString` on
whitespace into discrete arguments"; "splits purely on whitespace runs". -/
def tokens (l : List Char) : List (List Char) := tokensAux [] l

/-- Modelled from the spec: the tokenizer on strings. -/
def splitWhitespace (s : String) : List String := (tokens s.data).map String.mk

/-- Qt's `QString::toAscii()` with no C-string codec installed: the Latin-1
rendering, a character outside Latin-1 becomes `?`. -/
def toAscii (s : String) : String :=
  String.mk (s.data.map (fun c => if c.toNat < 256 then c else '?'))

/-! ## The compiler object -/

/-- Modelled from the spec: the state of the `Compiler` object (`Compiler.h`
is not among the sources): the configured executable path, the option list
returned by `options()`, and the captured output returned by `getOutput()`. -/
structure Compiler where
  path : String
  options : List String
  output : String
  deriving DecidableEq, Repr

/-- Modelled from the spec: an external process started by `Compiler::run`
(the working directory is not tracked). -/
structure Process where
  program : String
  arguments : List String
  deriving DecidableEq, Repr

namespace Compiler

/-- Modelled from the spec: `Compiler::setPath`. -/
def setPath (p : String) (c : Compiler) : Compiler := { c with path := p }

/-- Modelled from the spec: `Compiler::setOptions(QString)`, which "splits
`optionString` on whitespace into discrete arguments". -/
def setOptions (optionString : String) (c : Compiler) : Compiler :=
  { c with options := splitWhitespace optionString }

/-- Modelled from the spec: the argument vector of CommandBuilder for a
compiler whose option list is already split: the options, then "the source
file path as the final argument". -/
def argumentVector (c : Compiler) (inputFile : String) : List String :=
  c.options ++ [inputFile]

/-- Modelled from the spec: `Compiler::getCommandLine`: "the executable path
followed by the space-joined argument vector". -/
def getCommandLine (c : Compiler) (inputFile : String) : String :=
  c.path ++ " " ++ join " " (c.argumentVector inputFile)

/-- Modelled from the spec: `Compiler::getOutput`. -/
def getOutput (c : Compiler) : String := c.output

/-- Modelled from the spec: `Compiler::test`: "verifies the configured
executable path exists and is executable"; an empty path is never runnable. -/
def test (executables : List String) (c : Compiler) : Bool :=
  decide (c.path ≠ "") && decide (c.path ∈ executables)

end Compiler

/-- Modelled from the spec: CommandBuilder as a function of the executable
path, the option string and the source file: the program and the argument
vector of the launch. -/
def commandBuilder (executablePath optionString sourceFilePath : String) : Process :=
  let c : Compiler :=
    Compiler.setOptions optionString (Compiler.setPath executablePath ⟨"", [], ""⟩)
  ⟨c.path, c.argumentVector sourceFilePath⟩

/-! ## The window -/

/-- Buttons of `QMessageBox::question` and `QMessageBox::warning`. -/
inductive Button
  | yes
  | no
  | cancel
  deriving DecidableEq, Repr

/-- Modelled from the spec: what the user does with `CompilerOptionsDialog`
(not among the sources): closes it accepted or not, after possibly typing over
either field; `none` leaves the field as it was shown. -/
structure SetupAnswer where
  accepted : Bool
  pathTyped : Option String
  optionsTyped : Option String
  deriving DecidableEq, Repr

/-- Calls recorded in the order they happen (bookkeeping for the theorems; the
program itself keeps no such record). -/
inductive Call
  | saveFile
  | saveFileAs
  | writeFile (fileName : String)
  | setupCompiler
  | run (inputFile : String)
  deriving DecidableEq, Repr

/-- State of `MainWindow` together with its surroundings. -/
structure MainWindow where
  /-- the editor text, `m_editor->toPlainText()` -/
  text : String
  /-- the modified flag, `m_editor->document()->isModified()` -/
  modified : Bool
  /-- the current file name, `m_fileName` -/
  fileName : String
  /-- the output pane `m_outputWidget`: the blocks appended since the last `clear()` -/
  outputPane : List String
  /-- the compiler object, `m_compiler` -/
  compiler : Compiler
  /-- files on disk: path and content -/
  disk : List (String × String)
  /-- paths that `QFile::open(WriteOnly)` refuses -/
  unwritable : List String
  /-- paths that exist and are executable -/
  executables : List String
  /-- future answers to `QMessageBox::question` / `warning` -/
  buttons : List Button
  /-- future answers to `getSaveFileName`; `""` is a dismissed dialog -/
  saveNames : List String
  /-- future answers to `getOpenFileName`; `""` is a dismissed dialog -/
  openNames : List String
  /-- future answers to `CompilerOptionsDialog` -/
  setups : List SetupAnswer
  /-- processes started so far -/
  processes : List Process
  /-- calls made so far -/
  calls : List Call
  deriving DecidableEq, Repr

namespace MainWindow

/-- Append a call to the record. -/
def record (c : Call) (w : MainWindow) : MainWindow := { w with calls := w.calls ++ [c] }

/-- The call `m_outputWidget->appendPlainText(t)`. -/
def appendPlainText (t : String) (w : MainWindow) : MainWindow :=
  { w with outputPane := w.outputPane ++ [t] }

/-- The call `m_outputWidget->clear()`. -/
def clearOutput (w : MainWindow) : MainWindow := { w with outputPane := [] }

/-- Both `m_editor->document()->isEmpty()` and `m_editor->toPlainText().isEmpty()`. -/
def isEmpty (w : MainWindow) : Bool := decide (w.text = "")

/-- Content of a file on disk, `none` when `QFile::open(ReadOnly)` fails. -/
def diskRead (disk : List (String × String)) (fileName : String) : Option String :=
  (disk.find? (fun e => e.1 == fileName)).map (fun e => e.2)

/-- Replace the content of a file on disk. -/
def diskWrite (disk : List (String × String)) (fileName content : String) :
    List (String × String) :=
  (fileName, content) :: disk.filter (fun e => !(e.1 == fileName))

/-- The call `m_compiler->test()`. -/
def test (w : MainWindow) : Bool := w.compiler.test w.executables

/-- Modelled from the spec: `Compiler::run`: "fails with `ConfigurationError`
if `test()` is false", otherwise starts the executable with the argument
vector. -/
def compilerRun (inputFile : String) (w : MainWindow) : MainWindow :=
  if w.test then
    { w with processes := w.processes ++ [⟨w.compiler.path, w.compiler.argumentVector inputFile⟩] }
  else w

/-- Method `MainWindow::writeFile` (lines 349-364). -/
def writeFile (fileName : String) (w : MainWindow) : MainWindow :=
  let w := w.record (.writeFile fileName)
  if fileName ∈ w.unwritable then
    w
  else
    { w with disk := diskWrite w.disk fileName (toAscii w.text), modified := false }

/-- Method `MainWindow::readFile` (lines 330-347). -/
def readFile (fileName : String) (w : MainWindow) : MainWindow :=
  if fileName ≠ "" then
    match diskRead w.disk fileName with
    | none => w
    | some content => { w with fileName := fileName, text := content, modified := false }
  else w

/-- Dialog `QFileDialog::getSaveFileName`: the user's next answer. -/
def getSaveFileName (w : MainWindow) : String := w.saveNames.headD ""

/-- The window once the save dialog has been answered. -/
def afterSaveDialog (w : MainWindow) : MainWindow := { w with saveNames := w.saveNames.tail }

mutual

/-- Method `MainWindow::saveFile` (lines 133-146). -/
def saveFile (w : MainWindow) : Bool × MainWindow :=
  if w.isEmpty then
    (false, w.record .saveFile)
  else if _h : w.fileName = "" then
    (false, (saveFileAs (w.record .saveFile)).2)
  else
    (true, writeFile w.fileName (w.record .saveFile))
termination_by (if w.fileName = "" then 3 else 1)
decreasing_by
  simp [*]

/-- Method `MainWindow::saveFileAs` (lines 148-164). -/
def saveFileAs (w : MainWindow) : Bool × MainWindow :=
  if w.isEmpty then
    (false, w.record .saveFileAs)
  else if _h : w.getSaveFileName ≠ "" then
    saveFile { (w.record .saveFileAs).afterSaveDialog with fileName := w.getSaveFileName }
  else
    (false, (w.record .saveFileAs).afterSaveDialog)
termination_by 2
decreasing_by
  simp [*]

end

/-- Dialogs `QMessageBox::question` / `QMessageBox::warning`: the user's next answer. -/
def messageBox (w : MainWindow) : Button := w.buttons.headD .cancel

/-- The window once the message box has been answered. -/
def afterMessageBox (w : MainWindow) : MainWindow := { w with buttons := w.buttons.tail }

/-- Method `MainWindow::isSafeToClose` (lines 89-121). -/
def isSafeToClose (w : MainWindow) : Bool × MainWindow :=
  if w.modified && !w.isEmpty then
    match w.messageBox with
    | .yes =>
      let w1 := (saveFile w.afterMessageBox).2
      if w1.modified then
        -- Save file failed or cancelled
        (false, w1)
      else
        (true, w1)
    | .no => (true, w.afterMessageBox)
    | .cancel => (false, w.afterMessageBox)
  else
    (true, w)

/-- The call `m_editor->clear()`: the text is deleted and, as `QPlainTextEdit::clear`
does, the document is left unmodified. -/
def clearEditor (w : MainWindow) : MainWindow := { w with text := "", modified := false }

/-- Method `MainWindow::closeFile` (lines 123-131). -/
def closeFile (w : MainWindow) : Bool × MainWindow :=
  let r := isSafeToClose w
  if r.1 then
    (true, { r.2.clearEditor with fileName := "" })
  else
    (false, r.2)

/-- Method `MainWindow::newFile` (lines 72-75). -/
def newFile (w : MainWindow) : Bool × MainWindow := closeFile w

/-- Dialog `QFileDialog::getOpenFileName`: the user's next answer. -/
def getOpenFileName (w : MainWindow) : String := w.openNames.headD ""

/-- The window once the open dialog has been answered. -/
def afterOpenDialog (w : MainWindow) : MainWindow := { w with openNames := w.openNames.tail }

/-- Method `MainWindow::openFile` (lines 77-87). -/
def openFile (w : MainWindow) : Bool × MainWindow :=
  let r := closeFile w
  if r.1 then
    (true, readFile r.2.getOpenFileName r.2.afterOpenDialog)
  else
    (false, r.2)

/-- Dialog `CompilerOptionsDialog::exec`: the user's next answer. -/
def setupDialog (w : MainWindow) : SetupAnswer := w.setups.headD ⟨false, none, none⟩

/-- The window once the compiler dialog has been closed. -/
def afterSetupDialog (w : MainWindow) : MainWindow := { w with setups := w.setups.tail }

/-- Method `MainWindow::setupCompiler` (lines 286-299).  The dialog is filled with the
compiler path and with the options joined by one space; what it returns is what
was shown unless the user typed over it. -/
def setupCompiler (w : MainWindow) : MainWindow :=
  let shownPath := w.compiler.path
  let shownOptions := join " " w.compiler.options
  let answer := w.setupDialog
  let w1 := (w.record .setupCompiler).afterSetupDialog
  if answer.accepted then
    let c := Compiler.setPath (answer.pathTyped.getD shownPath) w1.compiler
    { w1 with compiler := Compiler.setOptions (answer.optionsTyped.getD shownOptions) c }
  else
    w1

/-- Method `MainWindow::compile` (lines 248-272). -/
def compile (w : MainWindow) : MainWindow :=
  if !w.test then
    if w.messageBox ≠ .no then
      setupCompiler w.afterMessageBox
    else
      w.afterMessageBox
  else if w.isEmpty then
    w.appendPlainText "Nothing to compile!"
  else if w.fileName = "" then
    (saveFileAs w).2
  else
    compilerRun w.fileName (w.record (.run w.fileName))

/-- Method `MainWindow::compiled` (lines 274-284). -/
def compiled (_exitCode : Int) (w : MainWindow) : MainWindow :=
  let w1 := w.clearOutput
  let command := w1.compiler.getCommandLine w1.fileName
  let w2 := w1.appendPlainText command
  let w3 := w2.appendPlainText "\n"
  let output := w3.compiler.getOutput
  w3.appendPlainText output

/-- Modelled from the spec: completion of the compiler process: the captured
output replaces the previous one, then the `finished(int)` signal reaches the
`compiled(int)` slot. -/
def processFinished (captured : String) (exitCode : Int) (w : MainWindow) : MainWindow :=
  compiled exitCode { w with compiler := { w.compiler with output := captured } }

/-- The slots a user can trigger between the start of a compilation and its
completion that the theorems consider. -/
inductive UiOp
  | closeFile
  | openFile
  | saveFileAs
  deriving DecidableEq, Repr

/-- Run one slot. -/
def uiStep (w : MainWindow) : UiOp → MainWindow
  | .closeFile => (closeFile w).2
  | .openFile => (openFile w).2
  | .saveFileAs => (saveFileAs w).2

/-- Run a sequence of slots, first to last. -/
def uiRun (ops : List UiOp) (w : MainWindow) : MainWindow := ops.foldl uiStep w

/-- The input files of the `run` calls in a record of calls, oldest first. -/
def runCalls (cs : List Call) : List String :=
  cs.filterMap (fun c => match c with
    | .run f => some f
    | _ => none)

/-- The file names of the `writeFile` calls in a record of calls, oldest first. -/
def writeCalls (cs : List Call) : List String :=
  cs.filterMap (fun c => match c with
    | .writeFile f => some f
    | _ => none)

/-- The file a save triggered from the close prompt writes to: the current
file name, or for an unnamed document the answer to the Save-As dialog (`""`
when that dialog is dismissed). -/
def saveTarget (w : MainWindow) : String :=
  if w.fileName = "" then w.getSaveFileName else w.fileName

end MainWindow

/-! ## Sample states -/

/-- A saved, unmodified script with a working compiler configured. -/
def sample : MainWindow :=
  { text := "main(){}", modified := false, fileName := "/tmp/x.pwn", outputPane := [],
    compiler := ⟨"/bin/pawncc", ["-d3"], ""⟩, disk := [("/tmp/x.pwn", "main(){}")],
    unwritable := ["/ro/a.pwn"], executables := ["/bin/pawncc"], buttons := [],
    saveNames := [], openNames := [], setups := [], processes := [], calls := [] }

/-- An edited script that has no file name yet; the user will answer Yes to the
close prompt and pick a file that cannot be written. -/
def unsaved : MainWindow :=
  { sample with modified := true, fileName := "", buttons := [.yes],
                saveNames := ["/ro/a.pwn"] }

/-- A window whose compiler has three options and whose user accepts the set-up
dialog as shown. -/
def configured : MainWindow :=
  { sample with compiler := ⟨"/bin/pawncc", ["-d3", "-O1", "-i/usr/include"], ""⟩,
                setups := [⟨true, none, none⟩] }

/-- A window with a working compiler, an empty editor and no file name. -/
def blank : MainWindow :=
  { sample with text := "", fileName := "", saveNames := ["/tmp/y.pwn"] }

/-! ## Unfolding the save functions -/

open MainWindow

theorem saveFileAs_eq (w : MainWindow) : saveFileAs w =
    if w.isEmpty then (false, w.record .saveFileAs)
    else if w.getSaveFileName ≠ "" then
      (true, writeFile w.getSaveFileName
        (record .saveFile
          { (w.record .saveFileAs).afterSaveDialog with fileName := w.getSaveFileName }))
    else (false, (w.record .saveFileAs).afterSaveDialog) := by
  rw [saveFileAs]
  by_cases h1 : w.isEmpty = true
  · simp [h1]
  · by_cases h2 : w.getSaveFileName = ""
    · simp [h1, h2]
    · have h3 : MainWindow.isEmpty
          { (w.record .saveFileAs).afterSaveDialog with fileName := w.getSaveFileName } = false := by
        simpa [MainWindow.isEmpty, record, afterSaveDialog] using h1
      rw [saveFile]
      simp [h1, h2, h3]

theorem saveFile_eq (w : MainWindow) : saveFile w =
    if w.isEmpty then (false, w.record .saveFile)
    else if w.fileName = "" then (false, (saveFileAs (w.record .saveFile)).2)
    else (true, writeFile w.fileName (w.record .saveFile)) := by
  rw [saveFile]
  by_cases h1 : w.isEmpty = true
  · simp [h1]
  · by_cases h2 : w.fileName = "" <;> simp [h1, h2]

/-! ## The completion handler -/

/-- C3: for every prior content of the output pane, every command line and every
captured output, after `compiled(exitCode)` the output pane holds exactly three
blocks: the command line, then a newline, then the captured output; nothing of
its previous content is left. -/
theorem C3_compiled_pane (exitCode : Int) (w : MainWindow) :
    (compiled exitCode w).outputPane =
      [w.compiler.getCommandLine w.fileName, "\n", w.compiler.getOutput] := by
  simp [compiled, clearOutput, appendPlainText]

/-- C6: the completion handler does not look at the exit code: for any two exit
codes the window is left in the same state, for every state it may be in and
every captured output. -/
theorem C6_compiled_ignores_exit_code (e1 e2 : Int) (w : MainWindow) :
    compiled e1 w = compiled e2 w ∧
      ∀ captured, processFinished captured e1 w = processFinished captured e2 w :=
  ⟨rfl, fun _ => rfl⟩

/-! ## compile -/

theorem runCalls_append (a b : List Call) : runCalls (a ++ b) = runCalls a ++ runCalls b := by
  simp [runCalls]

theorem writeFile_calls (f : String) (w : MainWindow) :
    (writeFile f w).calls = w.calls ++ [.writeFile f] := by
  unfold writeFile
  simp only [record]
  split <;> rfl

theorem writeFile_processes (f : String) (w : MainWindow) :
    (writeFile f w).processes = w.processes := by
  unfold writeFile
  simp only [record]
  split <;> rfl

/-- The calls one `saveFileAs` adds to the record. -/
theorem saveFileAs_calls (w : MainWindow) :
    (saveFileAs w).2.calls = w.calls ++
      (if w.isEmpty then [.saveFileAs]
       else if w.getSaveFileName ≠ "" then
         [.saveFileAs, .saveFile, .writeFile w.getSaveFileName]
       else [.saveFileAs]) := by
  rw [saveFileAs_eq]
  by_cases h1 : w.isEmpty = true
  · simp [h1, record]
  · by_cases h2 : w.getSaveFileName = ""
    · simp [h1, h2, record, afterSaveDialog]
    · simp [h1, h2, writeFile_calls, record, afterSaveDialog]

/-- The calls one `saveFile` adds to the record. -/
theorem saveFile_calls (w : MainWindow) :
    (saveFile w).2.calls = w.calls ++
      (if w.isEmpty then [.saveFile]
       else if w.fileName = "" then
         (if w.getSaveFileName ≠ "" then
            [.saveFile, .saveFileAs, .saveFile, .writeFile w.getSaveFileName]
          else [.saveFile, .saveFileAs])
       else [.saveFile, .writeFile w.fileName]) := by
  rw [saveFile_eq]
  by_cases h1 : w.isEmpty = true
  · simp [h1, record]
  · by_cases h2 : w.fileName = ""
    · have h3 : (w.record .saveFile).isEmpty = w.isEmpty := rfl
      have h4 : (w.record .saveFile).getSaveFileName = w.getSaveFileName := rfl
      have h6 := saveFileAs_calls (w.record .saveFile)
      rw [h3, h4] at h6
      by_cases h5 : w.getSaveFileName = "" <;> simp [h1, h2, h5] at h6 ⊢ <;> rw [h6] <;>
        simp [record]
    · simp [h1, h2, writeFile_calls, record]

theorem saveFileAs_processes (w : MainWindow) : (saveFileAs w).2.processes = w.processes := by
  rw [saveFileAs_eq]
  by_cases h1 : w.isEmpty = true
  · simp [h1, record]
  · by_cases h2 : w.getSaveFileName = ""
    · simp [h1, h2, record, afterSaveDialog]
    · simp [h1, h2, writeFile_processes, record, afterSaveDialog]

theorem setupCompiler_calls (w : MainWindow) :
    (setupCompiler w).calls = w.calls ++ [.setupCompiler] := by
  unfold setupCompiler
  simp only [record, afterSetupDialog]
  split <;> rfl

theorem setupCompiler_processes (w : MainWindow) :
    (setupCompiler w).processes = w.processes := by
  unfold setupCompiler
  simp only [record, afterSetupDialog]
  split <;> rfl

/-- What `compile` does when `test()` is false. -/
theorem compile_test_false (w : MainWindow) (h : w.test = false) :
    runCalls (compile w).calls = runCalls w.calls ∧ (compile w).processes = w.processes := by
  have hc : compile w =
      (if w.messageBox = .no then w.afterMessageBox else setupCompiler w.afterMessageBox) := by
    unfold compile
    by_cases hb : w.messageBox = .no <;> simp [h, hb]
  rw [hc]
  by_cases hb : w.messageBox = .no
  · simp [hb, afterMessageBox]
  · simp [hb, setupCompiler_calls, setupCompiler_processes, afterMessageBox, runCalls_append,
      runCalls]

/-- C1: in every state in which the compiler's `test()` is false, `compile()`
makes no call of `run()` and starts no process, whatever the answer to the
warning, the editor text and the file name: on No it does nothing more, on any
other answer it opens the compiler set-up dialog. -/
theorem C1_no_run_when_test_fails (w : MainWindow) (h : w.test = false) :
    runCalls (compile w).calls = runCalls w.calls ∧
      (compile w).processes = w.processes ∧
      (compile w).calls = w.calls ++ (if w.messageBox = .no then [] else [.setupCompiler]) ∧
      compile w =
        (if w.messageBox = .no then w.afterMessageBox else setupCompiler w.afterMessageBox) := by
  have hc : compile w =
      (if w.messageBox = .no then w.afterMessageBox else setupCompiler w.afterMessageBox) := by
    unfold compile
    by_cases hb : w.messageBox = .no <;> simp [h, hb]
  refine ⟨(compile_test_false w h).1, (compile_test_false w h).2, ?_, hc⟩
  rw [hc]
  by_cases hb : w.messageBox = .no
  · simp [hb, afterMessageBox]
  · simp [hb, setupCompiler_calls, afterMessageBox]

/-- Witness of C1: the sample window with no executable on the machine. -/
theorem C1_no_run_when_test_fails_witness :
    MainWindow.test { sample with executables := [] } = false ∧
      runCalls (compile { sample with executables := [] }).calls = [] ∧
      (compile { sample with executables := [] }).processes = [] :=
  ⟨by decide,
   (C1_no_run_when_test_fails { sample with executables := [] } (by decide)).1,
   (C1_no_run_when_test_fails { sample with executables := [] } (by decide)).2.1⟩

/-- C8 as amended: the slot `compile()` calls `run()` if and only if `test()`
is true, the text is non-empty and the file name is non-empty, and then exactly
once, on the current file name, starting one process and leaving text, modified
flag, file name and disk as they were, with no `writeFile`.  When `test()` is
true, the text is non-empty and the file name is empty, `compile()` is
`saveFileAs()` and nothing more, with no run even if the save succeeds; when
`test()` is true and the text is empty it appends "Nothing to compile!" and
nothing more. -/
theorem C8_compile_runs_iff (w : MainWindow) :
    runCalls (compile w).calls = runCalls w.calls ++
        (if w.test = true ∧ w.text ≠ "" ∧ w.fileName ≠ "" then [w.fileName] else []) ∧
      (compile w).processes = w.processes ++
        (if w.test = true ∧ w.text ≠ "" ∧ w.fileName ≠ "" then
          [⟨w.compiler.path, w.compiler.options ++ [w.fileName]⟩] else []) ∧
      (w.test = true → w.text ≠ "" → w.fileName ≠ "" →
        (compile w).calls = w.calls ++ [.run w.fileName] ∧
        (compile w).text = w.text ∧ (compile w).modified = w.modified ∧
        (compile w).fileName = w.fileName ∧ (compile w).disk = w.disk ∧
        (compile w).outputPane = w.outputPane ∧ (compile w).compiler = w.compiler) ∧
      (w.test = true → w.text ≠ "" → w.fileName = "" → compile w = (saveFileAs w).2) ∧
      (w.test = true → w.text = "" → compile w = w.appendPlainText "Nothing to compile!") := by
  by_cases ht : w.test = true
  swap
  · have ht2 : w.test = false := by simpa using ht
    have h1 := compile_test_false w ht2
    simp [ht2, h1.1, h1.2]
  by_cases hx : w.text = ""
  · have hc : compile w = w.appendPlainText "Nothing to compile!" := by
      simp [compile, ht, MainWindow.isEmpty, hx]
    simp [hc, hx, appendPlainText]
  by_cases hf : w.fileName = ""
  · have hc : compile w = (saveFileAs w).2 := by
      simp [compile, ht, MainWindow.isEmpty, hx, hf]
    have hcalls := saveFileAs_calls w
    have he : w.isEmpty = false := by simp [MainWindow.isEmpty, hx]
    rw [hc, hcalls, saveFileAs_processes]
    by_cases hn : w.getSaveFileName = "" <;>
      simp [he, hn, hf, hx, runCalls_append, runCalls]
  · have hc : compile w = compilerRun w.fileName (w.record (.run w.fileName)) := by
      simp [compile, ht, MainWindow.isEmpty, hx, hf]
    have ht3 : (w.record (.run w.fileName)).test = true := ht
    have hr : compile w =
        { w with processes := w.processes ++ [⟨w.compiler.path, w.compiler.options ++ [w.fileName]⟩],
                 calls := w.calls ++ [.run w.fileName] } := by
      rw [hc, compilerRun, if_pos ht3]
      rfl
    simp [hr, ht, hx, hf, runCalls_append, runCalls]

/-- Witness of C8: the sample window runs the compiler on its file; without a
file name it only saves, also when the save succeeds; without text it only
reports that there is nothing to compile. -/
theorem C8_compile_runs_iff_witness :
    (compile sample).calls = [.run "/tmp/x.pwn"] ∧
      (compile sample).disk = sample.disk ∧
      compile { sample with fileName := "", saveNames := ["/tmp/y.pwn"] } =
        (saveFileAs { sample with fileName := "", saveNames := ["/tmp/y.pwn"] }).2 ∧
      compile { sample with text := "" } =
        MainWindow.appendPlainText "Nothing to compile!" { sample with text := "" } :=
  ⟨((C8_compile_runs_iff sample).2.2.1 (by decide) (by decide) (by decide)).1,
   ((C8_compile_runs_iff sample).2.2.1 (by decide) (by decide) (by decide)).2.2.2.2.1,
   (C8_compile_runs_iff { sample with fileName := "", saveNames := ["/tmp/y.pwn"] }).2.2.2.1
     (by decide) (by decide) (by decide),
   (C8_compile_runs_iff { sample with text := "" }).2.2.2.2 (by decide) (by decide)⟩

/-- Counterexample to C8 as stated.  With a working compiler, an empty text and
an empty file name, `compile()` does not open Save-As: it appends "Nothing to
compile!" and makes no call.  With no working compiler and an empty text it
appends nothing: it shows the warning and, on any answer but No, opens the
compiler set-up dialog. -/
theorem C8_counterexample :
    (blank.fileName = "" ∧ blank.text = "" ∧ MainWindow.test blank = true ∧
        (compile blank).outputPane = ["Nothing to compile!"] ∧
        Call.saveFileAs ∉ (compile blank).calls ∧
        (compile blank).saveNames = blank.saveNames ∧
        (compile blank).outputPane ≠ blank.outputPane) ∧
      (MainWindow.text { blank with executables := [] } = "" ∧
        MainWindow.test { blank with executables := [] } = false ∧
        (compile { blank with executables := [] }).outputPane = [] ∧
        (compile { blank with executables := [] }).calls = [.setupCompiler] ∧
        compile { blank with executables := [] } ≠
          MainWindow.appendPlainText "Nothing to compile!" { blank with executables := [] }) := by
  decide

/-! ## saveFile and saveFileAs -/

/-- C9: the functions `saveFile()` and `saveFileAs()` return for every state and every dialog
answer (both are total functions), and the calls one top-level call makes are
exactly these: `saveFile()` calls `saveFileAs()` only for a non-empty document
with an empty file name; `saveFileAs()` calls `saveFile()` only after the dialog
gave a non-empty name, and that nested `saveFile()` goes straight to
`writeFile()`.  So a top-level call makes at most one nested call of each
function and at most one `writeFile()`. -/
theorem C9_save_calls_bounded (w : MainWindow) :
    (saveFile w).2.calls = w.calls ++
        (if w.isEmpty then [.saveFile]
         else if w.fileName = "" then
           (if w.getSaveFileName ≠ "" then
              [.saveFile, .saveFileAs, .saveFile, .writeFile w.getSaveFileName]
            else [.saveFile, .saveFileAs])
         else [.saveFile, .writeFile w.fileName]) ∧
      (saveFileAs w).2.calls = w.calls ++
        (if w.isEmpty then [.saveFileAs]
         else if w.getSaveFileName ≠ "" then
           [.saveFileAs, .saveFile, .writeFile w.getSaveFileName]
         else [.saveFileAs]) ∧
      (∃ t, (saveFile w).2.calls = w.calls ++ t ∧ t.count .saveFile ≤ 2 ∧
        t.count .saveFileAs ≤ 1 ∧ (writeCalls t).length ≤ 1) ∧
      (∃ t, (saveFileAs w).2.calls = w.calls ++ t ∧ t.count .saveFileAs = 1 ∧
        t.count .saveFile ≤ 1 ∧ (writeCalls t).length ≤ 1) := by
  refine ⟨saveFile_calls w, saveFileAs_calls w, ⟨_, saveFile_calls w, ?_⟩,
    ⟨_, saveFileAs_calls w, ?_⟩⟩
  · by_cases h1 : w.isEmpty = true
    · simp [h1, writeCalls]
    · by_cases h2 : w.fileName = "" <;> by_cases h3 : w.getSaveFileName = "" <;>
        simp [h1, h2, h3, writeCalls]
  · by_cases h1 : w.isEmpty = true
    · simp [h1, writeCalls]
    · by_cases h3 : w.getSaveFileName = "" <;> simp [h1, h3, writeCalls]

/-! ## The option tokenizer -/

theorem tokensAux_sep (c : Char) (hc : isSpace c = true) (b : List Char) :
    ∀ (a cur : List Char), tokensAux cur (a ++ c :: b) = tokensAux cur a ++ tokens b := by
  intro a
  induction a with
  | nil =>
    intro cur
    by_cases h : cur = [] <;> simp [tokensAux, tokens, hc, h]
  | cons x xs ih =>
    intro cur
    by_cases hx : isSpace x = true
    · by_cases h : cur = [] <;> simp [tokensAux, hx, h, ih]
    · simp [tokensAux, hx, ih]

theorem tokensAux_word (t : List Char) (ht : ∀ c ∈ t, isSpace c = false) :
    ∀ cur : List Char, tokensAux cur t =
      if t.reverse ++ cur = [] then [] else [(t.reverse ++ cur).reverse] := by
  induction t with
  | nil =>
    intro cur
    simp [tokensAux]
  | cons x xs ih =>
    intro cur
    have hx : isSpace x = false := ht x (by simp)
    have hxs : ∀ c ∈ xs, isSpace c = false := fun c hc => ht c (by simp [hc])
    simp [tokensAux, hx, ih hxs]

/-- A non-empty run without whitespace is one token. -/
theorem tokens_word (t : List Char) (hne : t ≠ []) (ht : ∀ c ∈ t, isSpace c = false) :
    tokens t = [t] := by
  simp [tokens, tokensAux_word t ht, hne]

/-- A whitespace character separates: the tokens on its two sides never merge. -/
theorem tokens_sep (a b : List Char) (c : Char) (hc : isSpace c = true) :
    tokens (a ++ c :: b) = tokens a ++ tokens b :=
  tokensAux_sep c hc b a []

theorem tokensAux_clean : ∀ (l cur : List Char), (∀ c ∈ cur, isSpace c = false) →
    ∀ t ∈ tokensAux cur l, t ≠ [] ∧ ∀ c ∈ t, isSpace c = false := by
  intro l
  induction l with
  | nil =>
    intro cur hcur t ht
    by_cases h : cur = []
    · simp [tokensAux, h] at ht
    · simp only [tokensAux, h, if_false, List.mem_singleton] at ht
      subst ht
      exact ⟨by simpa using h, fun c hc => hcur c (by simpa using hc)⟩
  | cons x xs ih =>
    intro cur hcur t ht
    by_cases hx : isSpace x = true
    · by_cases h : cur = []
      · simp only [tokensAux, hx, h, if_true] at ht
        exact ih [] (by simp) t ht
      · simp only [tokensAux, hx, h, if_true, if_false, List.mem_cons] at ht
        rcases ht with ht | ht
        · subst ht
          exact ⟨by simpa using h, fun c hc => hcur c (by simpa using hc)⟩
        · exact ih [] (by simp) t ht
    · simp only [tokensAux, hx] at ht
      refine ih (x :: cur) ?_ t ht
      intro c hc
      rcases List.mem_cons.1 hc with rfl | hc
      · simpa using hx
      · exact hcur c hc

theorem tokensAux_chars : ∀ (l cur : List Char),
    (tokensAux cur l).flatten = cur.reverse ++ l.filter (fun c => !isSpace c) := by
  intro l
  induction l with
  | nil =>
    intro cur
    by_cases h : cur = [] <;> simp [tokensAux, h]
  | cons x xs ih =>
    intro cur
    by_cases hx : isSpace x = true
    · by_cases h : cur = [] <;> simp [tokensAux, hx, h, ih]
    · simp [tokensAux, hx, ih]

theorem join_cons_cons (sep x y : String) (ys : List String) :
    join sep (x :: y :: ys) = x ++ sep ++ join sep (y :: ys) := rfl

/-- Splitting the space-joined list gives the list back. -/
theorem splitWhitespace_join : ∀ ts : List String,
    (∀ t ∈ ts, t ≠ "" ∧ ∀ c ∈ t.data, isSpace c = false) →
    splitWhitespace (join " " ts) = ts := by
  intro ts
  induction ts with
  | nil => intro _; rfl
  | cons x xs ih =>
    intro h
    have hx := h x (by simp)
    have hxne : x.data ≠ [] := by
      intro h0
      apply hx.1
      cases x
      simp_all
    cases xs with
    | nil =>
      simp [splitWhitespace, join, tokens_word x.data hxne hx.2]
    | cons y ys =>
      have ih2 := ih (fun t ht => h t (by simp [ht]))
      have hd : (join " " (x :: y :: ys)).data = x.data ++ ' ' :: (join " " (y :: ys)).data := by
        rw [join_cons_cons]
        simp [String.data_append]
      unfold splitWhitespace at ih2 ⊢
      rw [hd, tokens_sep _ _ ' ' (by decide), tokens_word x.data hxne hx.2]
      simp [ih2]

/-- C4: for every executable path, option string and source file path, the
argument vector of the launch is the list of whitespace-delimited tokens of the
option string, in their order, followed by the source file path as last
element.  The tokens are the maximal runs without whitespace: each is non-empty
and free of whitespace, together they are the non-whitespace characters of the
option string in order, a whitespace character always separates, and a string
without whitespace is one token.  This is the vector `run()` starts the process
with.  Option string "hello" and source "/tmp/x.pwn" give
["hello", "/tmp/x.pwn"]. -/
theorem C4_argument_vector (executablePath optionString sourceFilePath : String) :
    (commandBuilder executablePath optionString sourceFilePath).program = executablePath ∧
      (commandBuilder executablePath optionString sourceFilePath).arguments =
        splitWhitespace optionString ++ [sourceFilePath] ∧
      (commandBuilder executablePath optionString sourceFilePath).arguments.getLast? =
        some sourceFilePath ∧
      (∀ t ∈ splitWhitespace optionString, t ≠ "" ∧ ∀ c ∈ t.data, isSpace c = false) ∧
      ((splitWhitespace optionString).map String.data).flatten =
        optionString.data.filter (fun c => !isSpace c) ∧
      (∀ a b c, isSpace c = true → optionString.data = a ++ c :: b →
        splitWhitespace optionString =
          splitWhitespace (String.mk a) ++ splitWhitespace (String.mk b)) ∧
      (optionString ≠ "" → (∀ c ∈ optionString.data, isSpace c = false) →
        splitWhitespace optionString = [optionString]) ∧
      (commandBuilder "/bin/echo" "hello" "/tmp/x.pwn").arguments = ["hello", "/tmp/x.pwn"] ∧
      ∀ w : MainWindow,
        (compilerRun sourceFilePath
          { w with compiler :=
              Compiler.setOptions optionString (Compiler.setPath executablePath w.compiler) }
          ).processes =
        if executablePath ≠ "" ∧ executablePath ∈ w.executables then
          w.processes ++ [commandBuilder executablePath optionString sourceFilePath]
        else w.processes := by
  refine ⟨rfl, rfl, ?_, ?_, ?_, ?_, ?_, by decide, ?_⟩
  · simp [commandBuilder, Compiler.argumentVector]
  · intro t ht
    simp only [splitWhitespace, List.mem_map] at ht
    obtain ⟨u, hu, rfl⟩ := ht
    have := tokensAux_clean optionString.data [] (by simp) u hu
    refine ⟨?_, this.2⟩
    intro h0
    apply this.1
    simpa using congrArg String.data h0
  · have := tokensAux_chars optionString.data []
    simp only [splitWhitespace, List.map_map]
    simpa [tokens, Function.comp_def] using this
  · intro a b c hc hab
    simp [splitWhitespace, hab, tokens_sep a b c hc]
  · intro hne hfree
    have hd : optionString.data ≠ [] := by
      intro h0
      apply hne
      cases optionString
      simp_all
    simp [splitWhitespace, tokens_word optionString.data hd hfree]
  · intro w
    by_cases h : executablePath ≠ "" ∧ executablePath ∈ w.executables
    · have ht : MainWindow.test
          { w with compiler :=
              Compiler.setOptions optionString (Compiler.setPath executablePath w.compiler) }
          = true := by
        simp [MainWindow.test, Compiler.test, Compiler.setOptions, Compiler.setPath, h.1, h.2]
      rw [compilerRun, if_pos ht, if_pos h]
      rfl
    · have ht : ¬ MainWindow.test
          { w with compiler :=
              Compiler.setOptions optionString (Compiler.setPath executablePath w.compiler) }
          = true := by
        simpa [MainWindow.test, Compiler.test, Compiler.setOptions, Compiler.setPath] using h
      rw [compilerRun, if_neg ht, if_neg h]

/-- C5: round trip of the options through the set-up dialog.  For every option
list whose tokens are non-empty and free of whitespace, the string the dialog
shows (the tokens joined by one space) splits back into the same list, so
accepting the dialog without typing over the options leaves the compiler's
options unchanged, and the whole compiler unchanged when the path is not typed
over either. -/
theorem C5_options_round_trip (w : MainWindow)
    (hopts : ∀ t ∈ w.compiler.options, t ≠ "" ∧ ∀ c ∈ t.data, isSpace c = false)
    (hacc : w.setupDialog.accepted = true) (hkeep : w.setupDialog.optionsTyped = none) :
    splitWhitespace (join " " w.compiler.options) = w.compiler.options ∧
      (setupCompiler w).compiler.options = w.compiler.options ∧
      (w.setupDialog.pathTyped = none → (setupCompiler w).compiler = w.compiler) := by
  have hrt := splitWhitespace_join w.compiler.options hopts
  refine ⟨hrt, ?_, ?_⟩
  · simp [setupCompiler, hacc, hkeep, Compiler.setOptions, Compiler.setPath, record,
      afterSetupDialog, hrt]
  · intro hp
    simp [setupCompiler, hacc, hkeep, hp, Compiler.setOptions, Compiler.setPath, record,
      afterSetupDialog, hrt]

/-- Witness of C5: three options survive the dialog. -/
theorem C5_options_round_trip_witness :
    (setupCompiler configured).compiler.options = ["-d3", "-O1", "-i/usr/include"] :=
  (C5_options_round_trip configured (by decide) (by decide) (by decide)).2.1

/-! ## Closing a document -/

theorem diskRead_diskWrite (disk : List (String × String)) (f c : String) :
    diskRead (diskWrite disk f c) f = some c := by
  simp [diskRead, diskWrite]

/-- The window after `saveFile` on a non-empty document. -/
theorem saveFile_state (w : MainWindow) (hne : w.isEmpty = false) :
    (saveFile w).2 =
      if w.fileName = "" then
        (if w.getSaveFileName ≠ "" then
          writeFile w.getSaveFileName
            (record .saveFile
              { ((w.record .saveFile).record .saveFileAs).afterSaveDialog with
                fileName := w.getSaveFileName })
        else ((w.record .saveFile).record .saveFileAs).afterSaveDialog)
      else writeFile w.fileName (w.record .saveFile) := by
  have h3 : (w.record .saveFile).isEmpty = false := hne
  have h4 : (w.record .saveFile).getSaveFileName = w.getSaveFileName := rfl
  rw [saveFile_eq, saveFileAs_eq, h3, h4]
  by_cases h2 : w.fileName = ""
  · by_cases h5 : w.getSaveFileName = "" <;> simp [hne, h2, h5]
  · simp [hne, h2]

/-- What `saveFile` leaves behind on a non-empty document, by the file it
writes to. -/
theorem saveFile_summary (w : MainWindow) (hne : w.isEmpty = false) :
    (saveFile w).2.text = w.text ∧
      (saveTarget w = "" →
        (saveFile w).2.modified = w.modified ∧ (saveFile w).2.fileName = w.fileName ∧
        (saveFile w).2.disk = w.disk) ∧
      (saveTarget w ≠ "" → saveTarget w ∈ w.unwritable →
        (saveFile w).2.modified = w.modified ∧ (saveFile w).2.fileName = saveTarget w ∧
        (saveFile w).2.disk = w.disk) ∧
      (saveTarget w ≠ "" → saveTarget w ∉ w.unwritable →
        (saveFile w).2.modified = false ∧ (saveFile w).2.fileName = saveTarget w ∧
        (saveFile w).2.disk = diskWrite w.disk (saveTarget w) (toAscii w.text)) := by
  rw [saveFile_state w hne]
  by_cases h2 : w.fileName = ""
  · by_cases h5 : w.getSaveFileName = ""
    · simp [h2, h5, saveTarget, record, afterSaveDialog]
    · by_cases h6 : w.getSaveFileName ∈ w.unwritable <;>
        simp [h2, h5, h6, saveTarget, record, afterSaveDialog, writeFile]
  · by_cases h6 : w.fileName ∈ w.unwritable <;>
      simp [h2, h6, saveTarget, record, writeFile]

/-- The close check when the user answers Yes to the save prompt. -/
theorem isSafeToClose_yes (w : MainWindow) (hm : w.modified = true) (he : w.isEmpty = false)
    (hb : w.messageBox = .yes) :
    isSafeToClose w =
      (!(saveFile w.afterMessageBox).2.modified, (saveFile w.afterMessageBox).2) := by
  unfold isSafeToClose
  simp only [hm, he, hb]
  cases (saveFile w.afterMessageBox).2.modified <;> simp

/-- C7 as amended: no silent loss of unsaved text on close.  Whenever
`closeFile()` returns true (and has cleared the editor and the file name), the
document was unmodified or empty on entry, or the user answered No, or the user
answered Yes and the text was written to the file.  If the user answers Cancel,
or answers Yes and the save is cancelled or fails, `isSafeToClose()` and
`closeFile()` return false and the text, the modified flag and the disk are
unchanged; the file name is unchanged too when the user answered Cancel, when
the document had a file name, or when the Save-As dialog was dismissed. -/
theorem C7_close_keeps_unsaved_text (w : MainWindow) :
    ((closeFile w).1 = true →
        (w.modified = false ∨ w.text = "" ∨ w.messageBox = .no ∨
          (w.messageBox = .yes ∧ saveTarget w ≠ "" ∧ saveTarget w ∉ w.unwritable ∧
            diskRead (closeFile w).2.disk (saveTarget w) = some (toAscii w.text))) ∧
        (closeFile w).2.text = "" ∧ (closeFile w).2.fileName = "") ∧
      (w.modified = true → w.text ≠ "" →
        (w.messageBox = .cancel ∨
          (w.messageBox = .yes ∧ (saveTarget w = "" ∨ saveTarget w ∈ w.unwritable))) →
        (isSafeToClose w).1 = false ∧ (closeFile w).1 = false ∧
        (closeFile w).2.text = w.text ∧ (closeFile w).2.modified = true ∧
        (closeFile w).2.disk = w.disk ∧
        (w.messageBox = .cancel ∨ w.fileName ≠ "" ∨ saveTarget w = "" →
          (closeFile w).2.fileName = w.fileName)) := by
  by_cases hm : w.modified = true
  swap
  · have hm2 : w.modified = false := by simpa using hm
    simp [closeFile, isSafeToClose, hm2, clearEditor]
  by_cases hx : w.text = ""
  · simp [closeFile, isSafeToClose, hm, hx, MainWindow.isEmpty, clearEditor]
  have he : w.isEmpty = false := by simp [MainWindow.isEmpty, hx]
  have he2 : w.afterMessageBox.isEmpty = false := he
  have hs := saveFile_summary w.afterMessageBox he2
  have hst : saveTarget w.afterMessageBox = saveTarget w := rfl
  have e1 : w.afterMessageBox.text = w.text := rfl
  have e2 : w.afterMessageBox.modified = w.modified := rfl
  have e3 : w.afterMessageBox.fileName = w.fileName := rfl
  have e4 : w.afterMessageBox.disk = w.disk := rfl
  have e5 : w.afterMessageBox.unwritable = w.unwritable := rfl
  rw [hst, e1, e2, e3, e4, e5] at hs
  cases hb : w.messageBox with
  | no => simp [closeFile, isSafeToClose, hm, he, hb, clearEditor, afterMessageBox]
  | cancel => simp [closeFile, isSafeToClose, hm, he, hb, hx, afterMessageBox]
  | yes =>
    rw [closeFile, isSafeToClose_yes w hm he hb]
    generalize (saveFile w.afterMessageBox).2 = r at hs
    obtain ⟨hs1, hs2, hs3, hs4⟩ := hs
    by_cases h1 : saveTarget w = ""
    · obtain ⟨ha, hb2, hc⟩ := hs2 h1
      simp [hm, hx, h1, hs1, ha, hb2, hc]
    · by_cases h2 : saveTarget w ∈ w.unwritable
      · obtain ⟨ha, hb2, hc⟩ := hs3 h1 h2
        have hfn : w.fileName ≠ "" → saveTarget w = w.fileName := by
          intro h
          simp [saveTarget, h]
        simp [hm, hx, h1, h2, hs1, ha, hb2, hc]
        intro h
        exact hfn h
      · obtain ⟨ha, hb2, hc⟩ := hs4 h1 h2
        simp [hx, h1, h2, ha, hc, clearEditor, diskRead_diskWrite]

/-- Witness of C7: with Yes and a writable file the close succeeds, the text is
on disk and the editor is cleared; with Cancel the close is refused and text
and file name are kept. -/
theorem C7_close_keeps_unsaved_text_witness :
    ((closeFile { sample with modified := true, buttons := [.yes] }).1 = true ∧
        (closeFile { sample with modified := true, buttons := [.yes] }).2.text = "") ∧
      (isSafeToClose { sample with modified := true, buttons := [.cancel] }).1 = false ∧
      (closeFile { sample with modified := true, buttons := [.cancel] }).2.text = "main(){}" ∧
      (closeFile { sample with modified := true, buttons := [.cancel] }).2.fileName =
        "/tmp/x.pwn" :=
  have hyes : (closeFile { sample with modified := true, buttons := [.yes] }).1 = true := by
    simp only [closeFile, isSafeToClose, saveFile_eq]
    decide
  ⟨⟨hyes, ((C7_close_keeps_unsaved_text
      { sample with modified := true, buttons := [.yes] }).1 hyes).2.1⟩,
   ((C7_close_keeps_unsaved_text { sample with modified := true, buttons := [.cancel] }).2
      (by decide) (by decide) (Or.inl (by decide))).1,
   ((C7_close_keeps_unsaved_text { sample with modified := true, buttons := [.cancel] }).2
      (by decide) (by decide) (Or.inl (by decide))).2.2.1,
   ((C7_close_keeps_unsaved_text { sample with modified := true, buttons := [.cancel] }).2
      (by decide) (by decide) (Or.inl (by decide))).2.2.2.2.2 (Or.inl (by decide))⟩

/-- Counterexample to C7 as stated: an edited document without a file name; the
user answers Yes, picks a file that cannot be opened for writing, the save
fails and `closeFile()` returns false, yet the file name is no longer the empty
one it was. -/
theorem C7_counterexample :
    unsaved.modified = true ∧ unsaved.text ≠ "" ∧ unsaved.messageBox = .yes ∧
      saveTarget unsaved ∈ unsaved.unwritable ∧
      (isSafeToClose unsaved).1 = false ∧ (closeFile unsaved).1 = false ∧
      unsaved.fileName = "" ∧ (closeFile unsaved).2.fileName = "/ro/a.pwn" ∧
      (closeFile unsaved).2.fileName ≠ unsaved.fileName := by
  simp only [closeFile, isSafeToClose, saveFile_eq, saveFileAs_eq]
  decide

/-! ## Operations between the start of a run and its completion -/

theorem writeFile_compiler (f : String) (w : MainWindow) :
    (writeFile f w).compiler = w.compiler := by
  unfold writeFile
  simp only [record]
  split <;> rfl

theorem saveFileAs_compiler (w : MainWindow) : (saveFileAs w).2.compiler = w.compiler := by
  rw [saveFileAs_eq]
  by_cases h1 : w.isEmpty = true
  · simp [h1, record]
  · by_cases h2 : w.getSaveFileName = ""
    · simp [h1, h2, record, afterSaveDialog]
    · simp [h1, h2, writeFile_compiler, record, afterSaveDialog]

theorem saveFile_compiler (w : MainWindow) : (saveFile w).2.compiler = w.compiler := by
  rw [saveFile_eq]
  by_cases h1 : w.isEmpty = true
  · simp [h1, record]
  · by_cases h2 : w.fileName = ""
    · simp only [h1, h2, if_true, if_false, Bool.false_eq_true]
      rw [saveFileAs_compiler]
      rfl
    · simp [h1, h2, writeFile_compiler, record]

theorem isSafeToClose_compiler (w : MainWindow) :
    (isSafeToClose w).2.compiler = w.compiler := by
  unfold isSafeToClose
  split
  · split
    · have h := saveFile_compiler w.afterMessageBox
      dsimp only
      split <;> simpa [afterMessageBox] using h
    · rfl
    · rfl
  · rfl

theorem closeFile_compiler (w : MainWindow) : (closeFile w).2.compiler = w.compiler := by
  unfold closeFile
  have h := isSafeToClose_compiler w
  dsimp only
  split <;> simpa [clearEditor] using h

theorem readFile_compiler (f : String) (w : MainWindow) :
    (readFile f w).compiler = w.compiler := by
  unfold readFile
  split
  · split <;> rfl
  · rfl

theorem openFile_compiler (w : MainWindow) : (openFile w).2.compiler = w.compiler := by
  unfold openFile
  have h := closeFile_compiler w
  dsimp only
  split
  · rw [readFile_compiler]
    simpa [afterOpenDialog] using h
  · simpa using h

theorem uiRun_compiler (ops : List UiOp) :
    ∀ w : MainWindow, (uiRun ops w).compiler = w.compiler := by
  induction ops with
  | nil => intro w; rfl
  | cons op ops ih =>
    intro w
    have hstep : (uiStep w op).compiler = w.compiler := by
      cases op
      · exact closeFile_compiler w
      · exact openFile_compiler w
      · exact saveFileAs_compiler w
    have := ih (uiStep w op)
    simpa [uiRun, hstep] using this

/-- C2 as amended: when `compile()` has started a run on file `f` and any
sequence of `closeFile`, `openFile` and `saveFileAs` follows before the
completion is delivered, the command line the listener writes to the output
pane is `getCommandLine(m)` of the unchanged compiler configuration for the
file name `m` the window holds when the notification arrives; it is the command
line of the invocation whenever that file name is still `f`. -/
theorem C2_command_line_of_current_file (w : MainWindow) (ops : List UiOp)
    (captured : String) (exitCode : Int)
    (ht : w.test = true) (hx : w.text ≠ "") (hf : w.fileName ≠ "") :
    (compile w).calls = w.calls ++ [.run w.fileName] ∧
      (processFinished captured exitCode (uiRun ops (compile w))).outputPane =
        [w.compiler.getCommandLine (uiRun ops (compile w)).fileName, "\n", captured] ∧
      ((uiRun ops (compile w)).fileName = w.fileName →
        (processFinished captured exitCode (uiRun ops (compile w))).outputPane =
          [w.compiler.getCommandLine w.fileName, "\n", captured]) := by
  have hr : compile w =
      { w with processes := w.processes ++ [⟨w.compiler.path, w.compiler.options ++ [w.fileName]⟩],
               calls := w.calls ++ [.run w.fileName] } := by
    have ht3 : (w.record (.run w.fileName)).test = true := ht
    have hc : compile w = compilerRun w.fileName (w.record (.run w.fileName)) := by
      simp [compile, ht, MainWindow.isEmpty, hx, hf]
    rw [hc, compilerRun, if_pos ht3]
    rfl
  have hcomp : (uiRun ops (compile w)).compiler = w.compiler := by
    rw [uiRun_compiler, hr]
  have hpane : (processFinished captured exitCode (uiRun ops (compile w))).outputPane =
      [w.compiler.getCommandLine (uiRun ops (compile w)).fileName, "\n", captured] := by
    simp [processFinished, compiled, clearOutput, appendPlainText, hcomp,
      Compiler.getCommandLine, Compiler.getOutput, Compiler.argumentVector]
  refine ⟨by rw [hr], hpane, ?_⟩
  intro hsame
  rw [hpane, hsame]

/-- Witness of C2: the sample window compiles, the user dismisses a Save-As
dialog, and the completion shows the command line of the run. -/
theorem C2_command_line_of_current_file_witness :
    (processFinished "ok" 0 (uiRun [.saveFileAs] (compile sample))).outputPane =
      ["/bin/pawncc -d3 /tmp/x.pwn", "\n", "ok"] :=
  (C2_command_line_of_current_file sample [.saveFileAs] "ok" 0
    (by decide) (by decide) (by decide)).2.2
    (by simp only [uiRun, List.foldl, uiStep, saveFileAs_eq]; decide)

/-- Counterexample to C2 as stated: `compile()` starts a run on "/tmp/x.pwn",
the user closes the file, and the completion handler writes the command line
for the empty file name, not the one of the invocation. -/
theorem C2_counterexample :
    (compile sample).calls = [.run "/tmp/x.pwn"] ∧
      (compile sample).processes = [⟨"/bin/pawncc", ["-d3", "/tmp/x.pwn"]⟩] ∧
      (processFinished "ok" 0 (uiRun [.closeFile] (compile sample))).outputPane =
        ["/bin/pawncc -d3 ", "\n", "ok"] ∧
      (compile sample).compiler.getCommandLine "/tmp/x.pwn" = "/bin/pawncc -d3 /tmp/x.pwn" ∧
      (processFinished "ok" 0 (uiRun [.closeFile] (compile sample))).outputPane.head? ≠
        some ((compile sample).compiler.getCommandLine "/tmp/x.pwn") := by
  decide

end Qawno
